import Mathlib

/-
Verification development for the kick-ws client library.

The development shallowly embeds the library's core TypeScript modules:
  * MessageParser (frame decoding, payload normalization, emote cleanup),
  * EventEmitter (publish/subscribe registry over a Map of Sets),
  * WebSocketManager (message pipeline, buffering, filtering, range export,
    and the connection/reconnection state machine).

JavaScript runtime behavior is modelled explicitly: values are an inductive
type including undefined, property access throws on null/undefined,
truthiness follows JavaScript, and JSON.parse is an abstract parameter
(a function String to Option value) since it is a platform builtin.
Computations that can throw run in Except Unit; a try/catch in the source
becomes a match on the Except result.
-/

namespace KickWs

/-- JavaScript runtime values as produced by JSON.parse, extended with
undefined (the result of reading an absent property). -/
inductive JsVal where
  | jundef
  | jnull
  | jbool (b : Bool)
  | jnum (n : Int)
  | jstr (s : String)
  | jarr (elems : List JsVal)
  | jobj (fields : List (String × JsVal))

open JsVal

/-- JavaScript truthiness of a value. -/
def truthy : JsVal → Bool
  | jundef => false
  | jnull => false
  | jbool b => b
  | jnum n => n != 0
  | jstr s => s != ""
  | jarr _ => true
  | jobj _ => true

/-- The JavaScript expression `a || b` (short-circuit on a truthy left
operand), for operands that are already evaluated. -/
def jsOr (a b : JsVal) : JsVal := if truthy a then a else b

/-- First-match lookup in a field list (JavaScript object member lookup). -/
def jlookup : List (String × JsVal) → String → Option JsVal
  | [], _ => none
  | (k, v) :: rest, key => if k = key then some v else jlookup rest key

/-- Property access `v.f`: throws a TypeError on null/undefined, looks the
field up on objects (absent fields read as undefined), and yields undefined
on the remaining primitives and on arrays. -/
def getField : JsVal → String → Except Unit JsVal
  | jundef, _ => .error ()
  | jnull, _ => .error ()
  | jobj fields, key => .ok ((jlookup fields key).getD jundef)
  | _, _ => .ok jundef

/-- Optional chaining `v?.f`: evaluates to undefined when v is
null/undefined instead of throwing. -/
def optField (v : JsVal) (key : String) : Except Unit JsVal :=
  match v with
  | jundef => .ok jundef
  | jnull => .ok jundef
  | _ => getField v key

/-- The test `typeof v === "object"` — true for null, arrays and plain objects. -/
def typeofObject : JsVal → Bool
  | jnull => true
  | jarr _ => true
  | jobj _ => true
  | _ => false

/-- String.prototype.trim: strip leading and trailing whitespace. -/
def jsTrim (s : String) : String :=
  String.mk (((s.toList.dropWhile Char.isWhitespace).reverse.dropWhile
    Char.isWhitespace).reverse)

/-- String.prototype.startsWith. -/
def strStartsWith (s p : String) : Bool := p.toList.isPrefixOf s.toList

/-- Character class of the regex token backslash-w: ASCII letters, digits
and underscore. -/
def isWordChar (c : Char) : Bool := c.isAlphanum || c = '_'

/-- Drop an expected literal character sequence from the front of the
input; none when the input does not start with it. -/
def dropLit : List Char → List Char → Option (List Char)
  | [], cs => some cs
  | _ :: _, [] => none
  | l :: ls, c :: cs => if c = l then dropLit ls cs else none

/-- Match the regex `\[emote:(\d+):(\w+)\]` at the head of the input;
returns the second capture (the emote name) and the remaining input. -/
def matchEmote (cs : List Char) : Option (List Char × List Char) :=
  match dropLit "[emote:".toList cs with
  | none => none
  | some r1 =>
    let ds := r1.takeWhile Char.isDigit
    let r2 := r1.dropWhile Char.isDigit
    if ds.isEmpty then none else
    match r2 with
    | ':' :: r3 =>
      let ws := r3.takeWhile isWordChar
      let r4 := r3.dropWhile isWordChar
      if ws.isEmpty then none else
      match r4 with
      | ']' :: r5 => some (ws, r5)
      | _ => none
    | _ => none

/-- Left-to-right global regex replacement scan; the fuel bounds the number
of scan steps and each step consumes at least one input character, so fuel
equal to the input length is always sufficient. -/
def cleanEmotesAux : Nat → List Char → List Char
  | 0, cs => cs
  | _ + 1, [] => []
  | fuel + 1, c :: rest =>
    match matchEmote (c :: rest) with
    | some (name, rem) => name ++ cleanEmotesAux fuel rem
    | none => c :: cleanEmotesAux fuel rest

/-- Implements `content.replace(slash-emote-regex-slash-g, "$2")` on a string. -/
def replaceEmotes (s : String) : String :=
  String.mk (cleanEmotesAux s.toList.length s.toList)

/-- MessageParser.cleanEmotes: falsy content (absent, empty) maps to the
empty string; otherwise the emote markers in the string are replaced by
their name capture; calling replace on a truthy non-string throws. -/
def cleanEmotes (v : JsVal) : Except Unit String :=
  if truthy v = false then .ok "" else
  match v with
  | jstr s => .ok (replaceEmotes s)
  | _ => .error ()

/-- The test `v === undefined` on a JavaScript value. -/
def isUndef : JsVal → Bool
  | jundef => true
  | _ => false

/-- The test `v === ""` (strict equality against the empty string). -/
def isEmptyStr : JsVal → Bool
  | jstr s => s == ""
  | _ => false

example : replaceEmotes "Hi [emote:1:Kappa] there [emote:2:Pog]" = "Hi Kappa there Pog" := rfl
example : replaceEmotes "plain text" = "plain text" := rfl
example : cleanEmotes (jstr "") = .ok "" := rfl
example : cleanEmotes jundef = .ok "" := rfl

/-- The ten domain event kinds of the library. -/
inductive KickEventType where
  | ChatMessage
  | MessageDeleted
  | UserBanned
  | UserUnbanned
  | Subscription
  | GiftedSubscriptions
  | PinnedMessageCreated
  | StreamHost
  | PollUpdate
  | PollDelete
deriving Repr, DecidableEq

/-- Normalized identity block of a chat-message sender. -/
structure IdentityInfo where
  color : JsVal
  badges : JsVal

/-- Normalized sender block of a chat message. -/
structure SenderInfo where
  id : JsVal
  username : JsVal
  slug : JsVal
  identity : IdentityInfo

/-- Output shape of MessageParser.parseChatMessage. -/
structure ChatMessageEvent where
  id : JsVal
  content : String
  type : String
  created_at : JsVal
  sender : SenderInfo
  chatroom_id : JsVal

/-- Output shape of MessageParser.parseMessageDeleted. -/
structure MessageDeletedEvent where
  message_id : JsVal
  chatroom_id : JsVal
  type : String

/-- Output shape of MessageParser.parseUserBanned. -/
structure UserBannedEvent where
  username : JsVal
  type : String

/-- Output shape of MessageParser.parseUserUnbanned. -/
structure UserUnbannedEvent where
  username : JsVal
  type : String

/-- Output shape of MessageParser.parseSubscription. -/
structure SubscriptionEvent where
  username : JsVal
  type : String

/-- Output shape of MessageParser.parseGiftedSubscriptions. -/
structure GiftedSubscriptionsEvent where
  gifted_by : JsVal
  recipients : List JsVal
  type : String

/-- Output shape of MessageParser.parsePinnedMessageCreated. -/
structure PinnedMessageCreatedEvent where
  message : ChatMessageEvent
  type : String

/-- Output shape of MessageParser.parseStreamHost. -/
structure StreamHostEvent where
  hoster : JsVal
  hosted_channel : JsVal
  type : String

/-- One normalized poll option from MessageParser.parsePollUpdate. -/
structure PollOptionOut where
  id : JsVal
  text : JsVal
  votes : JsVal

/-- Output shape of MessageParser.parsePollUpdate. -/
structure PollUpdateEvent where
  poll_id : JsVal
  question : JsVal
  options : List PollOptionOut
  type : String

/-- Output shape of MessageParser.parsePollDelete. -/
structure PollDeleteEvent where
  poll_id : JsVal
  type : String

/-- Union of the ten normalized payload shapes. -/
inductive KickEventData where
  | chat (e : ChatMessageEvent)
  | deleted (e : MessageDeletedEvent)
  | banned (e : UserBannedEvent)
  | unbanned (e : UserUnbannedEvent)
  | sub (e : SubscriptionEvent)
  | gifted (e : GiftedSubscriptionsEvent)
  | pinned (e : PinnedMessageCreatedEvent)
  | host (e : StreamHostEvent)
  | pollUpd (e : PollUpdateEvent)
  | pollDel (e : PollDeleteEvent)

/-- MessageParser.parseChatMessage. -/
def parseChatMessage (data : JsVal) : Except Unit ChatMessageEvent := do
  let id ← getField data "id"
  let contentRaw ← getField data "content"
  let content ← cleanEmotes contentRaw
  let created_at ← getField data "created_at"
  let sender ← getField data "sender"
  let senderId ← getField sender "id"
  let senderUsername ← getField sender "username"
  let senderSlug ← getField sender "slug"
  let identity ← getField sender "identity"
  let color ← optField identity "color"
  let badges ← optField identity "badges"
  let chatroom ← getField data "chatroom"
  let chatroomId ← optField chatroom "id"
  .ok
    { id := id
      content := content
      type := "message"
      created_at := created_at
      sender :=
        { id := senderId
          username := senderUsername
          slug := senderSlug
          identity :=
            { color := jsOr color (jstr "#ffffff")
              badges := jsOr badges (jarr []) } }
      chatroom_id := jsOr chatroomId (jnum 0) }

/-- MessageParser.parseMessageDeleted. -/
def parseMessageDeleted (data : JsVal) : Except Unit MessageDeletedEvent := do
  let mid ← getField data "message_id"
  let cid ← getField data "chatroom_id"
  .ok { message_id := mid, chatroom_id := cid, type := "message_deleted" }

/-- MessageParser.parseUserBanned: username with fallback to
banned_username, then to the literal "unknown". -/
def parseUserBanned (data : JsVal) : Except Unit UserBannedEvent := do
  let u ← getField data "username"
  let bu ← getField data "banned_username"
  .ok { username := jsOr (jsOr u bu) (jstr "unknown"), type := "user_banned" }

/-- MessageParser.parseUserUnbanned. -/
def parseUserUnbanned (data : JsVal) : Except Unit UserUnbannedEvent := do
  let u ← getField data "username"
  let uu ← getField data "unbanned_username"
  .ok { username := jsOr (jsOr u uu) (jstr "unknown"), type := "user_unbanned" }

/-- MessageParser.parseSubscription. -/
def parseSubscription (data : JsVal) : Except Unit SubscriptionEvent := do
  let u ← getField data "username"
  let user ← getField data "user"
  let uu ← optField user "username"
  .ok { username := jsOr (jsOr u uu) (jstr "unknown"), type := "subscription" }

/-- MessageParser.parseGiftedSubscriptions. The gifter chain short-circuits:
when gifted_by is truthy the gifter branch (which can throw on a null
gifter) is not evaluated. -/
def parseGiftedSubscriptions (data : JsVal) : Except Unit GiftedSubscriptionsEvent := do
  let giftedBy ← getField data "gifted_by"
  let gifter ←
    if truthy giftedBy then .ok giftedBy
    else do
      let gifterV ← getField data "gifter"
      let alt ←
        if typeofObject gifterV then getField gifterV "username"
        else .ok gifterV
      .ok (jsOr alt (jstr "unknown"))
  let recipientsV ← getField data "recipients"
  let recipients ←
    match recipientsV with
    | jarr rs =>
      rs.mapM fun r =>
        match r with
        | jstr s => .ok (jstr s)
        | _ => do
          let u ← getField r "username"
          .ok (jsOr u (jstr "unknown"))
    | _ => .ok []
  .ok { gifted_by := gifter, recipients := recipients, type := "gifted_subscriptions" }

/-- MessageParser.parsePinnedMessageCreated. -/
def parsePinnedMessageCreated (data : JsVal) : Except Unit PinnedMessageCreatedEvent := do
  let msg ← getField data "message"
  let parsed ← parseChatMessage msg
  .ok { message := parsed, type := "pinned_message_created" }

/-- MessageParser.parseStreamHost. -/
def parseStreamHost (data : JsVal) : Except Unit StreamHostEvent := do
  let hosterV ← getField data "hoster"
  let hoster ←
    match hosterV with
    | jstr s => .ok (jstr s)
    | _ => do
      let u ← optField hosterV "username"
      .ok (jsOr u (jstr "unknown"))
  let hostedV ← getField data "hosted_channel"
  let hosted ←
    match hostedV with
    | jstr s => .ok (jstr s)
    | _ => do
      let u ← optField hostedV "username"
      .ok (jsOr u (jstr "unknown"))
  .ok { hoster := hoster, hosted_channel := hosted, type := "stream_host" }

/-- MessageParser.parsePollUpdate: map over `data.options || []`; calling
map on a truthy non-array throws. -/
def parsePollUpdate (data : JsVal) : Except Unit PollUpdateEvent := do
  let pid ← getField data "id"
  let q ← getField data "question"
  let optsV ← getField data "options"
  let optsArr ←
    match jsOr optsV (jarr []) with
    | jarr xs => Except.ok xs
    | _ => Except.error ()
  let opts ← optsArr.mapM fun opt => do
    let oid ← getField opt "id"
    let otext ← getField opt "text"
    let ovotes ← getField opt "votes"
    Except.ok (⟨oid, otext, jsOr ovotes (jnum 0)⟩ : PollOptionOut)
  .ok { poll_id := pid, question := q, options := opts, type := "poll_update" }

/-- MessageParser.parsePollDelete. -/
def parsePollDelete (data : JsVal) : Except Unit PollDeleteEvent := do
  let pid ← getField data "id"
  .ok { poll_id := pid, type := "poll_delete" }

mutual

/-- The JavaScript String() coercion applied by JSON.parse to a non-string
argument before parsing it. -/
def jsToString : JsVal → String
  | jundef => "undefined"
  | jnull => "null"
  | jbool b => cond b "true" "false"
  | jnum n => toString n
  | jstr s => s
  | jobj _ => "[object Object]"
  | jarr xs => String.intercalate "," (jsToStringList xs)

/-- Array join: null and undefined elements stringify to the empty string. -/
def jsToStringList : List JsVal → List String
  | [] => []
  | jnull :: vs => "" :: jsToStringList vs
  | jundef :: vs => "" :: jsToStringList vs
  | v :: vs => jsToString v :: jsToStringList vs

end

/-- The call `JSON.parse(message.data)`: the data field is coerced to a string and
handed to the abstract JSON parser. -/
def jsonParseData (jparse : String → Option JsVal) (v : JsVal) : Option JsVal :=
  jparse (jsToString v)

/-- A decoded frame: the domain kind tag plus its normalized payload. -/
structure ParsedMessage where
  type : KickEventType
  data : KickEventData

/-- The fixed upstream-identifier to domain-kind table, as written in
WebSocketManager.isEventFiltered (identical to the switch cases of
MessageParser.parseMessage). -/
def eventTypeMap (eventType : String) : Option KickEventType :=
  if eventType = "App\\Events\\ChatMessageEvent" then some .ChatMessage
  else if eventType = "App\\Events\\MessageDeletedEvent" then some .MessageDeleted
  else if eventType = "App\\Events\\UserBannedEvent" then some .UserBanned
  else if eventType = "App\\Events\\UserUnbannedEvent" then some .UserUnbanned
  else if eventType = "App\\Events\\SubscriptionEvent" then some .Subscription
  else if eventType = "App\\Events\\GiftedSubscriptionsEvent" then some .GiftedSubscriptions
  else if eventType = "App\\Events\\PinnedMessageCreatedEvent" then some .PinnedMessageCreated
  else if eventType = "App\\Events\\StreamHostEvent" then some .StreamHost
  else if eventType = "App\\Events\\PollUpdateEvent" then some .PollUpdate
  else if eventType = "App\\Events\\PollDeleteEvent" then some .PollDelete
  else none

/-- The switch on message.event in MessageParser.parseMessage: each
recognized case runs its payload normalizer (a throw inside a case is
caught by the enclosing try and yields null); the default case returns
null. -/
def parseSwitch (evs : String) (eventData : JsVal) : Option ParsedMessage :=
  if evs = "App\\Events\\ChatMessageEvent" then
    match parseChatMessage eventData with
    | .ok e => some ⟨.ChatMessage, .chat e⟩
    | .error _ => none
  else if evs = "App\\Events\\MessageDeletedEvent" then
    match parseMessageDeleted eventData with
    | .ok e => some ⟨.MessageDeleted, .deleted e⟩
    | .error _ => none
  else if evs = "App\\Events\\UserBannedEvent" then
    match parseUserBanned eventData with
    | .ok e => some ⟨.UserBanned, .banned e⟩
    | .error _ => none
  else if evs = "App\\Events\\UserUnbannedEvent" then
    match parseUserUnbanned eventData with
    | .ok e => some ⟨.UserUnbanned, .unbanned e⟩
    | .error _ => none
  else if evs = "App\\Events\\SubscriptionEvent" then
    match parseSubscription eventData with
    | .ok e => some ⟨.Subscription, .sub e⟩
    | .error _ => none
  else if evs = "App\\Events\\GiftedSubscriptionsEvent" then
    match parseGiftedSubscriptions eventData with
    | .ok e => some ⟨.GiftedSubscriptions, .gifted e⟩
    | .error _ => none
  else if evs = "App\\Events\\PinnedMessageCreatedEvent" then
    match parsePinnedMessageCreated eventData with
    | .ok e => some ⟨.PinnedMessageCreated, .pinned e⟩
    | .error _ => none
  else if evs = "App\\Events\\StreamHostEvent" then
    match parseStreamHost eventData with
    | .ok e => some ⟨.StreamHost, .host e⟩
    | .error _ => none
  else if evs = "App\\Events\\PollUpdateEvent" then
    match parsePollUpdate eventData with
    | .ok e => some ⟨.PollUpdate, .pollUpd e⟩
    | .error _ => none
  else if evs = "App\\Events\\PollDeleteEvent" then
    match parsePollDelete eventData with
    | .ok e => some ⟨.PollDelete, .pollDel e⟩
    | .error _ => none
  else none

/-- The body of one recognized switch case of MessageParser.parseMessage,
indexed by the domain kind the case is mapped to: run the kind's payload
normalizer, with a thrown normalization mapped to null by the enclosing
try/catch. -/
def runCase (t : KickEventType) (d : JsVal) : Option ParsedMessage :=
  match t with
  | .ChatMessage =>
    match parseChatMessage d with
    | .ok e => some ⟨.ChatMessage, .chat e⟩
    | .error _ => none
  | .MessageDeleted =>
    match parseMessageDeleted d with
    | .ok e => some ⟨.MessageDeleted, .deleted e⟩
    | .error _ => none
  | .UserBanned =>
    match parseUserBanned d with
    | .ok e => some ⟨.UserBanned, .banned e⟩
    | .error _ => none
  | .UserUnbanned =>
    match parseUserUnbanned d with
    | .ok e => some ⟨.UserUnbanned, .unbanned e⟩
    | .error _ => none
  | .Subscription =>
    match parseSubscription d with
    | .ok e => some ⟨.Subscription, .sub e⟩
    | .error _ => none
  | .GiftedSubscriptions =>
    match parseGiftedSubscriptions d with
    | .ok e => some ⟨.GiftedSubscriptions, .gifted e⟩
    | .error _ => none
  | .PinnedMessageCreated =>
    match parsePinnedMessageCreated d with
    | .ok e => some ⟨.PinnedMessageCreated, .pinned e⟩
    | .error _ => none
  | .StreamHost =>
    match parseStreamHost d with
    | .ok e => some ⟨.StreamHost, .host e⟩
    | .error _ => none
  | .PollUpdate =>
    match parsePollUpdate d with
    | .ok e => some ⟨.PollUpdate, .pollUpd e⟩
    | .error _ => none
  | .PollDelete =>
    match parsePollDelete d with
    | .ok e => some ⟨.PollDelete, .pollDel e⟩
    | .error _ => none

/-- MessageParser.parseMessage over an abstract JSON parser `jparse`
(JSON.parse returning none when it would throw). The whole body of the
source method sits in a try/catch whose catch returns null, so every
thrown access is mapped to none. -/
def parseMessage (jparse : String → Option JsVal) (rawMessage : String) :
    Option ParsedMessage :=
  if rawMessage = "" ∨ jsTrim rawMessage = "" then none
  else
    match jparse rawMessage with
    | none => none
    | some message =>
      match getField message "event", getField message "data" with
      | .ok ev, .ok dat =>
        if truthy ev = false ∨ isUndef dat then none
        else
          match ev with
          | jstr evs =>
            if strStartsWith evs "pusher:" ∨ strStartsWith evs "pusher_internal:" then none
            else if evs = "" ∨ isEmptyStr dat then none
            else if isUndef dat ∨ isEmptyStr dat then none
            else
              match jsonParseData jparse dat with
              | none => none
              | some eventData => parseSwitch evs eventData
          | _ => none
      | _, _ => none

/-- MessageParser.extractEventType: the cheap pre-check that returns the
outer event name, or null for blank input, invalid JSON, a missing or
non-string event, a control-namespace event, or an empty event name. -/
def extractEventType (jparse : String → Option JsVal) (rawMessage : String) :
    Option String :=
  if rawMessage = "" ∨ jsTrim rawMessage = "" then none
  else
    match jparse rawMessage with
    | none => none
    | some message =>
      match getField message "event" with
      | .ok ev =>
        if truthy ev = false then none
        else
          match ev with
          | jstr evs =>
            if strStartsWith evs "pusher:" ∨ strStartsWith evs "pusher_internal:" then none
            else if evs = "" then none
            else some evs
          | _ => none
      | .error _ => none

/-- Configuration of WebSocketManager (fields after merging the defaults). -/
structure KickWebSocketOptions where
  debug : Bool
  autoReconnect : Bool
  reconnectInterval : Nat
  enableBuffer : Bool
  bufferSize : Nat
  filteredEvents : List KickEventType

/-- The default option values from the WebSocketManager constructor. -/
def defaultOptions : KickWebSocketOptions :=
  { debug := false
    autoReconnect := true
    reconnectInterval := 5000
    enableBuffer := false
    bufferSize := 1000
    filteredEvents := [] }

/-- WebSocketManager.isEventFiltered: with an empty filter set nothing is
filtered; otherwise an upstream event name is filtered exactly when it maps
to a domain kind that is not in the allow-list (unknown names are not
filtered). -/
def isEventFiltered (filteredEvents : List KickEventType) (eventType : String) : Bool :=
  if filteredEvents.length = 0 then false
  else
    match eventTypeMap eventType with
    | some standardEventType => !(filteredEvents.contains standardEventType)
    | none => false

/-- WebSocketManager.addToBuffer: push to the tail, then drop the head if
the size exceeds the configured capacity. -/
def addToBuffer (bufferSize : Nat) (buffer : List String) (message : String) :
    List String :=
  let pushed := buffer ++ [message]
  if pushed.length > bufferSize then pushed.tail else pushed

/-- One observable action of the message-handling pipeline, in program
order. -/
inductive PipelineAct where
  | pubRaw (raw : String)
  | bufferAppend (raw : String)
  | pubEvent (t : KickEventType) (d : KickEventData)

/-- The early Pusher-system check of WebSocketManager.handleMessage
(lines wrapped in their own try/catch: a parse failure or a throwing
startsWith call falls through to normal processing). -/
def isPusherSystemFrame (jparse : String → Option JsVal) (rawMessage : String) : Bool :=
  match jparse rawMessage with
  | none => false
  | some message =>
    let chk : Except Unit Bool := do
      let ev ← getField message "event"
      match ev with
      | jundef => .ok false
      | jnull => .ok false
      | jstr s => .ok (strStartsWith s "pusher:" || strStartsWith s "pusher_internal:")
      | _ => .error ()
    match chk with
    | .ok b => b
    | .error _ => false

/-- WebSocketManager.handleMessage: publish the raw frame, buffer it when
enabled, drop Pusher system frames, drop frames whose extracted event type
is filtered, then publish the decoded event when parsing succeeds. Returns
the emitted/buffering actions in program order together with the new
buffer. -/
def handleMessage (jparse : String → Option JsVal) (options : KickWebSocketOptions)
    (buffer : List String) (rawMessage : String) :
    List PipelineAct × List String :=
  let acts0 := [PipelineAct.pubRaw rawMessage]
  let (acts1, buffer1) :=
    if options.enableBuffer then
      (acts0 ++ [PipelineAct.bufferAppend rawMessage],
       addToBuffer options.bufferSize buffer rawMessage)
    else (acts0, buffer)
  if isPusherSystemFrame jparse rawMessage then (acts1, buffer1)
  else
    let filtered :=
      match extractEventType jparse rawMessage with
      | some eventType => isEventFiltered options.filteredEvents eventType
      | none => false
    if filtered then (acts1, buffer1)
    else
      match parseMessage jparse rawMessage with
      | some parsedMessage =>
        (acts1 ++ [PipelineAct.pubEvent parsedMessage.type parsedMessage.data], buffer1)
      | none => (acts1, buffer1)

/-- Index clamping of Array.prototype.slice for an integer argument. -/
def jsSliceIdx (len : Nat) (i : Int) : Nat :=
  if i < 0 then ((len : Int) + i).toNat else min i.toNat len

/-- Array.prototype.slice with an optional end argument. -/
def jsSlice (l : List String) (s : Int) (e : Option Int) : List String :=
  let start := jsSliceIdx l.length s
  let stop :=
    match e with
    | none => l.length
    | some e => jsSliceIdx l.length e
  (l.take stop).drop start

/-- WebSocketManager.exportRawMessagesInRange: a falsy endIndex (absent or
zero) selects the one-argument slice overload. -/
def exportRawMessagesInRange (buffer : List String) (startIndex : Int)
    (endIndex : Option Int) : List String :=
  match endIndex with
  | some e => if e ≠ 0 then jsSlice buffer startIndex (some e) else jsSlice buffer startIndex none
  | none => jsSlice buffer startIndex none

/-
EventEmitter. Listeners are stored in a Map from event name to a Set of
functions (insertion-ordered, duplicate-free by function identity).
Handlers are defunctionalized: each registered closure is a code with a
numeric identity, interpreted by a fuel-bounded interpreter so that
re-entrant emits terminate.
-/

/-- A registered listener closure: its observable behavior plus a numeric
identity standing for JavaScript function identity. -/
inductive HCode where
  | act (i : Nat)
  | throwing (i : Nat)
  | reemit (i : Nat) (ev : String)
  | onceWrapper (i : Nat) (ev : String) (inner : HCode)
deriving Repr, DecidableEq

/-- Lookup in the events Map. -/
def emGet : List (String × List HCode) → String → Option (List HCode)
  | [], _ => none
  | (k, v) :: rest, e => if k = e then some v else emGet rest e

/-- Map.set: replace the binding for a key, or append a new one. -/
def emSet : List (String × List HCode) → String → List HCode → List (String × List HCode)
  | [], e, v => [(e, v)]
  | (k, w) :: rest, e, v => if k = e then (e, v) :: rest else (k, w) :: emSet rest e v

/-- Map.delete. -/
def emDelete : List (String × List HCode) → String → List (String × List HCode)
  | [], _ => []
  | (k, w) :: rest, e => if k = e then rest else (k, w) :: emDelete rest e

/-- Set.add: appends unless the element is already present. -/
def setAdd (l : List HCode) (h : HCode) : List HCode :=
  if l.contains h then l else l ++ [h]

/-- EventEmitter.on: create the Set on first use, then Set.add. -/
def emOn (events : List (String × List HCode)) (e : String) (h : HCode) :
    List (String × List HCode) :=
  match emGet events e with
  | none => emSet events e (setAdd [] h)
  | some listeners => emSet events e (setAdd listeners h)

/-- EventEmitter.off: Set.delete the listener, removing the Map entry when
the Set becomes empty; no-op when the event is unknown. -/
def emOff (events : List (String × List HCode)) (e : String) (h : HCode) :
    List (String × List HCode) :=
  match emGet events e with
  | none => events
  | some listeners =>
    let remaining := listeners.filter (fun x => x ≠ h)
    if remaining.isEmpty then emDelete events e else emSet events e remaining

/-- EventEmitter.once registers the fresh wrapper closure that first
unsubscribes itself and then invokes the wrapped listener. -/
def emOnce (events : List (String × List HCode)) (e : String) (wrapperId : Nat)
    (inner : HCode) : List (String × List HCode) :=
  emOn events e (.onceWrapper wrapperId e inner)

/-- EventEmitter.listenerCount. -/
def listenerCount (events : List (String × List HCode)) (e : String) : Nat :=
  match emGet events e with
  | some listeners => listeners.length
  | none => 0

/-- Emitter state observed by the interpreter: the registry, the ids of
listener bodies invoked so far (in order), and the number of handler
exceptions caught by emit. -/
structure EmitterState where
  events : List (String × List HCode)
  calls : List Nat
  caught : Nat

/-- Run one listener closure; the Bool reports whether it threw. `emitFn`
performs a re-entrant emit one nesting level down. -/
def runHandlerWith (emitFn : EmitterState → String → EmitterState × Bool) :
    EmitterState → HCode → EmitterState × Bool
  | s, .act i => ({ s with calls := s.calls ++ [i] }, false)
  | s, .throwing i => ({ s with calls := s.calls ++ [i] }, true)
  | s, .reemit i ev =>
    let s1 := { s with calls := s.calls ++ [i] }
    ((emitFn s1 ev).1, false)
  | s, .onceWrapper i ev inner =>
    let s1 := { s with events := emOff s.events ev (.onceWrapper i ev inner) }
    runHandlerWith emitFn s1 inner

/-- The for-loop of EventEmitter.emit over the snapshot array: each call is
wrapped in try/catch, a caught error is counted and iteration continues. -/
def runSnapshot (emitFn : EmitterState → String → EmitterState × Bool) :
    EmitterState → List HCode → EmitterState
  | s, [] => s
  | s, h :: rest =>
    let r := runHandlerWith emitFn s h
    let s2 := if r.2 then { r.1 with caught := r.1.caught + 1 } else r.1
    runSnapshot emitFn s2 rest

/-- EventEmitter.emit: false when no listener Set exists or it is empty;
otherwise the current listeners are copied into an array and each is
invoked under try/catch, and true is returned. The fuel bounds re-entrant
emit nesting. -/
def emitFuel : Nat → EmitterState → String → EmitterState × Bool
  | 0, s, _ => (s, false)
  | fuel + 1, s, e =>
    match emGet s.events e with
    | none => (s, false)
    | some listeners =>
      if listeners.isEmpty then (s, false)
      else (runSnapshot (emitFuel fuel) s listeners, true)

/-- Iterate emit n times on the same event name. -/
def iterEmit (fuel : Nat) (e : String) : Nat → EmitterState → EmitterState
  | 0, s => s
  | n + 1, s => iterEmit fuel e n (emitFuel fuel s e).1

/-
Connection controller state machine (WebSocketManager lifecycle).
The socket slot models the most recently created WebSocket object: its
handlers stay attached even after disconnect() nulls the this.ws field, so
the environment can still deliver its close (and error) notifications
until the close completes.
-/

/-- The ConnectionState enum of the library. -/
inductive ConnectionState where
  | disconnected
  | connecting
  | connected
  | reconnecting
  | error
deriving Repr, DecidableEq

/-- Phase of the most recent WebSocket object whose handlers can still
fire: created but not yet open, open, or close() called with the close
event still pending. -/
inductive SocketPhase where
  | opening
  | opened
  | closing
deriving Repr, DecidableEq

/-- Mutable fields of WebSocketManager relevant to the lifecycle. -/
structure MgrState where
  connectionState : ConnectionState
  isManualDisconnect : Bool
  reconnectTimer : Option Nat
  socket : Option SocketPhase
  options : KickWebSocketOptions

/-- Externally observable actions of the controller: dispatcher publishes,
socket operations and connect attempts. -/
inductive OutEvent where
  | emitReady
  | emitDisconnect (code : Nat)
  | emitError
  | subscribeSent
  | wsCloseCalled (code : Nat)
  | connectAttempt
deriving Repr, DecidableEq

/-- The manager right after the constructor ran. -/
def initialMgr (options : KickWebSocketOptions) : MgrState :=
  { connectionState := .disconnected
    isManualDisconnect := false
    reconnectTimer := none
    socket := none
    options := options }

/-- WebSocketManager.scheduleReconnect: clear any pending timer, move to
reconnecting, arm one single-shot timer of reconnectInterval. -/
def scheduleReconnect (s : MgrState) : MgrState :=
  { s with
    connectionState := .reconnecting
    reconnectTimer := some s.options.reconnectInterval }

/-- WebSocketManager.performConnection: move to connecting, resolve the
channel (outcome supplied by the environment), then create the socket and
attach handlers. The Bool result reports a thrown/rejected resolution. -/
def performConnection (s : MgrState) (resolveOk : Bool) :
    MgrState × List OutEvent × Bool :=
  let s1 := { s with connectionState := .connecting }
  if resolveOk then
    ({ s1 with socket := some .opening }, [.connectAttempt], false)
  else (s1, [.connectAttempt], true)

/-- WebSocketManager.handleConnectionError: move to error, publish the
error event, and schedule a reconnect unless disabled or manual. -/
def handleConnectionError (s : MgrState) : MgrState × List OutEvent :=
  let s1 := { s with connectionState := .error }
  if s1.options.autoReconnect && !s1.isManualDisconnect then
    (scheduleReconnect s1, [.emitError])
  else (s1, [.emitError])

/-- WebSocketManager.connect: no-op when already connected or connecting;
otherwise clear the manual flag and run performConnection, routing a
rejection through handleConnectionError (and rethrowing to the caller). -/
def connectCall (s : MgrState) (resolveOk : Bool) : MgrState × List OutEvent :=
  if s.connectionState = .connected ∨ s.connectionState = .connecting then (s, [])
  else
    let s1 := { s with isManualDisconnect := false }
    let r := performConnection s1 resolveOk
    if r.2.2 then
      let r2 := handleConnectionError r.1
      (r2.1, r.2.1 ++ r2.2)
    else (r.1, r.2.1)

/-- WebSocketManager.handleDisconnect (the onclose handler body): move to
disconnected, publish the disconnect event, and schedule a reconnect when
autoReconnect is on and the disconnect was not manual. -/
def handleDisconnect (s : MgrState) (code : Nat) : MgrState × List OutEvent :=
  let s1 := { s with connectionState := .disconnected }
  if s1.options.autoReconnect && !s1.isManualDisconnect then
    (scheduleReconnect s1, [.emitDisconnect code])
  else (s1, [.emitDisconnect code])

/-- The armed reconnect timer firing: the timer is spent, then
performConnection runs with its rejection only logged (no rescheduling
from this path). -/
def timerFire (s : MgrState) (resolveOk : Bool) : MgrState × List OutEvent :=
  let s1 := { s with reconnectTimer := none }
  let r := performConnection s1 resolveOk
  (r.1, r.2.1)

/-- WebSocketManager.disconnect: set the manual flag, cancel any pending
reconnect timer, close the live socket (if any) with code 1000, and move
to disconnected. -/
def disconnectCall (s : MgrState) : MgrState × List OutEvent :=
  let s1 := { s with isManualDisconnect := true, reconnectTimer := none }
  match s1.socket with
  | some _ =>
    ({ s1 with socket := some .closing, connectionState := .disconnected },
     [.wsCloseCalled 1000])
  | none => ({ s1 with connectionState := .disconnected }, [])

/-- External stimuli the environment can deliver to the controller. -/
inductive MgrEvent where
  | connectCall (resolveOk : Bool)
  | disconnectCall
  | timerFire (resolveOk : Bool)
  | socketOpen
  | socketClose (code : Nat)
  | socketError
deriving Repr, DecidableEq

/-- One step of the controller under an external stimulus. Socket
notifications are delivered only while the socket object exists (open only
while it is still opening); a timer can fire only while armed. -/
def step (s : MgrState) : MgrEvent → MgrState × List OutEvent
  | .connectCall resolveOk => connectCall s resolveOk
  | .disconnectCall => disconnectCall s
  | .timerFire resolveOk =>
    match s.reconnectTimer with
    | some _ => timerFire s resolveOk
    | none => (s, [])
  | .socketOpen =>
    match s.socket with
    | some .opening =>
      ({ s with socket := some .opened, connectionState := .connected },
       [.subscribeSent, .emitReady])
    | _ => (s, [])
  | .socketClose code =>
    match s.socket with
    | some _ =>
      let r := handleDisconnect { s with socket := none } code
      (r.1, r.2)
    | none => (s, [])
  | .socketError =>
    match s.socket with
    | some _ => (s, [.emitError])
    | none => (s, [])

/-- Run a sequence of stimuli, accumulating the observable actions. -/
def run (s : MgrState) : List MgrEvent → MgrState × List OutEvent
  | [] => (s, [])
  | ev :: rest =>
    let r := step s ev
    let r2 := run r.1 rest
    (r2.1, r.2 ++ r2.2)

/-- The identity of the listener body a code logs when invoked. -/
def hId : HCode → Nat
  | .act i => i
  | .throwing i => i
  | .reemit i _ => i
  | .onceWrapper i _ _ => i

/-- A listener that neither re-emits nor wraps: it only records its
invocation and possibly throws. -/
def isPlain : HCode → Bool
  | .act _ => true
  | .throwing _ => true
  | _ => false

/-- A listener that throws after recording its invocation. -/
def isThrowing : HCode → Bool
  | .throwing _ => true
  | _ => false

/-- Counts the disconnect publishes in a controller output trace. -/
def isEmitDisc : OutEvent → Bool
  | .emitDisconnect _ => true
  | _ => false

/-- Controller configuration reached right after disconnectCall: the manual
flag is set, no timer is armed, the state is disconnected, and the socket
(if still present) is closing, never opening. -/
def postDisconnect (s : MgrState) : Prop :=
  s.isManualDisconnect = true ∧ s.reconnectTimer = none ∧
    s.connectionState = .disconnected ∧ s.socket ≠ some .opening

/-- One unit of remaining socket notifications budget: a present socket can
still deliver at most one close event. -/
def socketBudget (s : MgrState) : Nat :=
  match s.socket with
  | some _ => 1
  | none => 0

/-- A stimulus that is not a connect() call. -/
def notConnect : MgrEvent → Prop
  | .connectCall _ => False
  | _ => True

/-- The input contains an emote marker at some scan position. -/
def hasEmoteMarker (s : String) : Prop :=
  ∃ n, (matchEmote (s.toList.drop n)).isSome = true

/-- A concrete chat-message payload for witnesses. -/
def chatPayload : JsVal :=
  jobj [("id", jstr "m1"),
        ("content", jstr "Hello [emote:1:Kappa]"),
        ("created_at", jstr "t1"),
        ("sender", jobj [("id", jnum 7), ("username", jstr "testuser"),
                         ("slug", jstr "tu"),
                         ("identity", jobj [("color", jstr "#123456"),
                                            ("badges", jarr [])])]),
        ("chatroom", jobj [("id", jnum 42)])]

/-- A concrete JSON-parse oracle for witnesses: one chat-message frame with
its double-encoded payload. -/
def jpChat : String → Option JsVal := fun s =>
  if s = "frameChat" then
    some (jobj [("event", jstr "App\\Events\\ChatMessageEvent"),
                ("data", jstr "payloadChat")])
  else if s = "payloadChat" then some chatPayload
  else none

/-- The decoded event jpChat's frame produces. -/
def chatEx : ChatMessageEvent :=
  { id := jstr "m1"
    content := "Hello Kappa"
    type := "message"
    created_at := jstr "t1"
    sender :=
      { id := jnum 7
        username := jstr "testuser"
        slug := jstr "tu"
        identity := { color := jstr "#123456", badges := jarr [] } }
    chatroom_id := jnum 42 }

/-- A concrete JSON-parse oracle for witnesses: one user-banned frame with
its double-encoded payload. -/
def jpBan : String → Option JsVal := fun s =>
  if s = "banframe" then
    some (jobj [("event", jstr "App\\Events\\UserBannedEvent"),
                ("data", jstr "banpayload")])
  else if s = "banpayload" then some (jobj [("username", jstr "bob")])
  else none

/- Helper lemmas. -/

theorem addToBuffer_drop (N : Nat) (l : List String) (m : String) :
    addToBuffer N (l.drop (l.length - N)) m =
      (l ++ [m]).drop ((l ++ [m]).length - N) := by
  have hle : l.length - N ≤ l.length := Nat.sub_le _ _
  have hpush : l.drop (l.length - N) ++ [m] = (l ++ [m]).drop (l.length - N) := by
    rw [List.drop_append_of_le_length hle]
  unfold addToBuffer
  rw [hpush]
  by_cases hN : l.length < N
  · have h0 : l.length - N = 0 := Nat.sub_eq_zero_of_le (Nat.le_of_lt hN)
    have hlen : ((l ++ [m]).drop (l.length - N)).length = l.length + 1 := by
      simp [h0]
    rw [if_neg]
    · have h1 : (l ++ [m]).length - N = 0 := by simp; omega
      rw [h0, h1]
    · rw [hlen]; omega
  · have hN' : N ≤ l.length := Nat.le_of_not_lt hN
    have hlen : ((l ++ [m]).drop (l.length - N)).length = N + 1 := by
      simp [List.length_drop]
      omega
    rw [if_pos (by rw [hlen]; omega)]
    rw [List.tail_drop]
    congr 1
    simp
    omega

theorem foldl_addToBuffer (N : Nat) (frames l : List String) :
    frames.foldl (addToBuffer N) (l.drop (l.length - N)) =
      (l ++ frames).drop ((l ++ frames).length - N) := by
  induction frames generalizing l with
  | nil => simp
  | cons f fs ih =>
    rw [List.foldl_cons, addToBuffer_drop, ih (l ++ [f])]
    simp

theorem foldl_addToBuffer_nil (N : Nat) (frames : List String) :
    frames.foldl (addToBuffer N) [] = frames.drop (frames.length - N) := by
  have h := foldl_addToBuffer N frames []
  simpa using h

/- Claim theorems. -/

/-- C5: for capacity N at least 1, appending N+k frames to the empty buffer
leaves exactly the last N frames, oldest first (the first k are evicted one
at a time), and every intermediate buffer - hence also the final one -
never exceeds N entries. -/
theorem C5_buffer_eviction (N k : Nat) (hN : 1 ≤ N) (frames : List String)
    (hlen : frames.length = N + k) :
    frames.foldl (addToBuffer N) [] = frames.drop k ∧
    ∀ pre : List String, pre <+: frames →
      (pre.foldl (addToBuffer N) []).length ≤ N := by
  constructor
  · rw [foldl_addToBuffer_nil, hlen]
    congr 1
    omega
  · intro pre _
    rw [foldl_addToBuffer_nil, List.length_drop]
    omega

/-- Witness for C5 at capacity 2 with 3 appends. -/
theorem C5_buffer_eviction_witness :
    ["a", "b", "c"].foldl (addToBuffer 2) [] = List.drop 1 ["a", "b", "c"] :=
  (C5_buffer_eviction 2 1 (by decide) ["a", "b", "c"] (by decide)).1

/-- C10: exportRawMessagesInRange with endIndex 0 behaves as if endIndex
were absent: it returns the whole suffix of the buffer from startIndex,
not the empty slice. -/
theorem C10_range_export_zero_end :
    (∀ (buffer : List String) (startIndex : Int),
      exportRawMessagesInRange buffer startIndex (some 0) =
        exportRawMessagesInRange buffer startIndex none) ∧
    (∀ (buffer : List String) (s : Nat),
      exportRawMessagesInRange buffer (s : Int) (some 0) = buffer.drop s) := by
  constructor
  · intro buffer startIndex
    simp [exportRawMessagesInRange]
  · intro buffer s
    simp only [exportRawMessagesInRange, jsSlice, jsSliceIdx]
    rw [if_neg (by omega)]
    simp only [List.take_length]
    rw [if_neg (by omega)]
    rcases Nat.le_total s buffer.length with h | h
    · simp [Nat.min_eq_left, h, Int.toNat_ofNat]
    · rw [Int.toNat_ofNat, Nat.min_eq_right h]
      rw [List.drop_eq_nil_of_le (le_refl _), List.drop_eq_nil_of_le h]

theorem emGet_emSet_self (m : List (String × List HCode)) (e : String) (v : List HCode) :
    emGet (emSet m e v) e = some v := by
  induction m with
  | nil => simp [emSet, emGet]
  | cons kv rest ih =>
    obtain ⟨k, w⟩ := kv
    by_cases hk : k = e
    · simp [emSet, emGet, hk]
    · simp [emSet, emGet, hk, ih]

theorem emSet_emSet (m : List (String × List HCode)) (e : String) (v w : List HCode) :
    emSet (emSet m e v) e w = emSet m e w := by
  induction m with
  | nil => simp [emSet]
  | cons kv rest ih =>
    obtain ⟨k, u⟩ := kv
    by_cases hk : k = e
    · simp [emSet, hk]
    · simp [emSet, hk, ih]

theorem setAdd_contains (l : List HCode) (h : HCode) :
    (setAdd l h).contains h = true := by
  unfold setAdd
  by_cases hc : l.contains h = true
  · rw [if_pos hc]; exact hc
  · rw [if_neg hc]; simp

theorem setAdd_idem (l : List HCode) (h : HCode) :
    setAdd (setAdd l h) h = setAdd l h := by
  unfold setAdd
  rw [if_pos]
  exact setAdd_contains l h

theorem emOn_idem (m : List (String × List HCode)) (e : String) (h : HCode) :
    emOn (emOn m e h) e h = emOn m e h := by
  unfold emOn
  cases hm : emGet m e with
  | none => simp only [hm, emGet_emSet_self, setAdd_idem, emSet_emSet]
  | some ls => simp only [hm, emGet_emSet_self, setAdd_idem, emSet_emSet]

/-- C8 counterexample: registering the same listener twice under the same
event name is de-duplicated by the Set registry — the listener count is 1,
not 2, and a publish invokes the handler once, not twice. -/
theorem C8_counterexample :
    listenerCount (emOn (emOn [] "e" (.act 0)) "e" (.act 0)) "e" = 1 ∧
    ¬ listenerCount (emOn (emOn [] "e" (.act 0)) "e" (.act 0)) "e" = 2 ∧
    (emitFuel 1 ⟨emOn (emOn [] "e" (.act 0)) "e" (.act 0), [], 0⟩ "e").1.calls = [0] :=
  ⟨rfl, by decide, rfl⟩

/-- C8 (amended): EventEmitter.on stores listeners in a Set keyed by
function identity, so a second registration of the same handler for the
same event is a no-op: the registry is unchanged, the listener count stays
1, and a publish invokes the handler once per publish, not once per
registration. -/
theorem C8_registration_dedup (m : List (String × List HCode)) (e : String) (h : HCode) :
    emOn (emOn m e h) e h = emOn m e h ∧
    listenerCount (emOn (emOn [] e h) e h) e = 1 ∧
    ∀ fuel i, h = .act i →
      (emitFuel (fuel + 1) ⟨emOn (emOn [] e h) e h, [], 0⟩ e).1.calls = [i] := by
  refine ⟨emOn_idem m e h, ?_, ?_⟩
  · rw [emOn_idem]
    simp [emOn, emGet, emSet, setAdd, listenerCount]
  · intro fuel i hi
    subst hi
    rw [emOn_idem]
    simp [emOn, emGet, emSet, setAdd, emitFuel, runSnapshot, runHandlerWith]

/-- Witness for C8's amended theorem with a concrete handler. -/
theorem C8_registration_dedup_witness :
    (emitFuel 1 ⟨emOn (emOn [] "e" (HCode.act 3)) "e" (HCode.act 3), [], 0⟩ "e").1.calls = [3] :=
  (C8_registration_dedup [] "e" (HCode.act 3)).2.2 0 3 rfl

theorem runSnapshot_plain (f : EmitterState → String → EmitterState × Bool)
    (ls : List HCode) :
    ∀ (E : List (String × List HCode)) (C : List Nat) (K : Nat),
      (∀ h ∈ ls, isPlain h = true) →
      runSnapshot f ⟨E, C, K⟩ ls = ⟨E, C ++ ls.map hId, K + ls.countP isThrowing⟩ := by
  induction ls with
  | nil => intro E C K _; simp [runSnapshot]
  | cons h rest ih =>
    intro E C K hp
    have hph : isPlain h = true := hp h (List.mem_cons_self _ _)
    have hprest : ∀ x ∈ rest, isPlain x = true := fun x hx =>
      hp x (List.mem_cons_of_mem _ hx)
    cases h with
    | act i =>
      simp only [runSnapshot, runHandlerWith]
      rw [if_neg (by simp)]
      rw [ih _ _ _ hprest]
      simp [hId, List.countP_cons, isThrowing]
    | throwing i =>
      simp only [runSnapshot, runHandlerWith]
      rw [if_pos trivial]
      rw [ih _ _ _ hprest]
      simp [hId, List.countP_cons, isThrowing, EmitterState.mk.injEq]
      try omega
    | reemit i ev => simp [isPlain] at hph
    | onceWrapper i ev inner => simp [isPlain] at hph

/-- C6: EventEmitter.emit returns true exactly when at least one subscriber
is registered for the event at call time; a snapshot of the listener Set is
invoked in order, each call isolated by try/catch, so with plain (possibly
throwing) handlers every registered handler is invoked exactly once per
publish — a throw is counted as caught and does not stop the remaining
handlers or escape to the caller. -/
theorem C6_emit_isolation (fuel : Nat) (s : EmitterState) (e : String) :
    ((emitFuel (fuel + 1) s e).2 = true ↔
      ∃ ls, emGet s.events e = some ls ∧ ls ≠ []) ∧
    (∀ ls, emGet s.events e = some ls → (∀ h ∈ ls, isPlain h = true) →
      (emitFuel (fuel + 1) s e).1.calls = s.calls ++ ls.map hId ∧
      (emitFuel (fuel + 1) s e).1.events = s.events ∧
      (emitFuel (fuel + 1) s e).1.caught = s.caught + ls.countP isThrowing) := by
  obtain ⟨E, C, K⟩ := s
  constructor
  · simp only [emitFuel]
    cases hg : emGet E e with
    | none => simp
    | some ls =>
      cases ls with
      | nil => simp
      | cons h rest => simp
  · intro ls hg hp
    simp only [emitFuel, hg]
    cases ls with
    | nil => simp [runSnapshot]
    | cons h rest =>
      have hr := runSnapshot_plain (emitFuel fuel) (h :: rest) E C K hp
      simp [hr]

/-- Witness for C6: two handlers on one event, the first throwing; the
publish returns true, both run exactly once, the throw is caught. -/
theorem C6_emit_isolation_witness :
    (emitFuel 1 ⟨[("e", [HCode.throwing 1, HCode.act 2])], [], 0⟩ "e").2 = true ∧
    (emitFuel 1 ⟨[("e", [HCode.throwing 1, HCode.act 2])], [], 0⟩ "e").1.calls = [1, 2] ∧
    (emitFuel 1 ⟨[("e", [HCode.throwing 1, HCode.act 2])], [], 0⟩ "e").1.caught = 1 := by
  have h := C6_emit_isolation 0 ⟨[("e", [HCode.throwing 1, HCode.act 2])], [], 0⟩ "e"
  have h2 := h.2 [HCode.throwing 1, HCode.act 2] rfl (by decide)
  refine ⟨h.1.mpr ⟨[HCode.throwing 1, HCode.act 2], rfl, by decide⟩, ?_, ?_⟩
  · simpa using h2.1
  · simpa using h2.2.2

theorem emitFuel_empty (f : Nat) (C : List Nat) (K : Nat) (e : String) :
    emitFuel f ⟨[], C, K⟩ e = (⟨[], C, K⟩, false) := by
  cases f <;> simp [emitFuel, emGet]

theorem iterEmit_empty (fuel : Nat) (e : String) (n : Nat) (C : List Nat) (K : Nat) :
    iterEmit fuel e n ⟨[], C, K⟩ = ⟨[], C, K⟩ := by
  induction n with
  | zero => simp [iterEmit]
  | succ n ih => simp [iterEmit, emitFuel_empty, ih]

theorem emit_once_act (fuel : Nat) (e : String) (w i : Nat) :
    emitFuel (fuel + 1) ⟨emOnce [] e w (.act i), [], 0⟩ e = (⟨[], [i], 0⟩, true) := by
  simp [emOnce, emOn, emGet, emSet, setAdd, emitFuel, runSnapshot, runHandlerWith,
    emOff, emDelete]

/-- C7: a subscribeOnce handler fires exactly once across any number of
publishes of its event; the wrapper unsubscribes itself before invoking the
wrapped listener, so the registry is already empty after the first publish
and a re-entrant publish of the same event from inside the handler does not
re-trigger it. -/
theorem C7_once_semantics (e : String) (w i n fuel : Nat) :
    (iterEmit (fuel + 1) e (n + 1) ⟨emOnce [] e w (.act i), [], 0⟩).calls = [i] ∧
    (emitFuel (fuel + 1) ⟨emOnce [] e w (.act i), [], 0⟩ e).1.events = [] ∧
    (emitFuel (fuel + 2) ⟨emOnce [] e w (.reemit i e), [], 0⟩ e).1.calls = [i] := by
  refine ⟨?_, ?_, ?_⟩
  · rw [show iterEmit (fuel + 1) e (n + 1) ⟨emOnce [] e w (.act i), [], 0⟩ =
        iterEmit (fuel + 1) e n (emitFuel (fuel + 1) ⟨emOnce [] e w (.act i), [], 0⟩ e).1
      from rfl]
    rw [emit_once_act]
    rw [iterEmit_empty]
  · rw [emit_once_act]
  · simp [emOnce, emOn, emGet, emSet, setAdd, emitFuel, runSnapshot, runHandlerWith,
      emOff, emDelete, emitFuel_empty]

set_option maxHeartbeats 1600000 in
theorem parseSwitch_eq (evs : String) (d : JsVal) :
    parseSwitch evs d = (eventTypeMap evs).bind (fun t => runCase t d) := by
  unfold parseSwitch eventTypeMap
  split_ifs <;> rfl

theorem runCase_type (t : KickEventType) (d : JsVal) (pm : ParsedMessage)
    (h : runCase t d = some pm) : pm.type = t := by
  obtain ⟨pt, pd⟩ := pm
  cases t <;> (simp only [runCase] at h; split at h <;> simp_all)

set_option maxHeartbeats 1000000 in
theorem parseMessage_shape (jparse : String → Option JsVal) (raw : String)
    (pm : ParsedMessage) (h : parseMessage jparse raw = some pm) :
    ∃ evs, extractEventType jparse raw = some evs ∧ eventTypeMap evs = some pm.type := by
  unfold parseMessage at h
  split at h
  · simp at h
  next hTrim =>
    cases hj : jparse raw with
    | none => rw [hj] at h; simp at h
    | some message =>
      rw [hj] at h
      dsimp only at h
      cases hev : getField message "event" with
      | error u => rw [hev] at h; simp at h
      | ok ev =>
        cases hdat : getField message "data" with
        | error u => rw [hev, hdat] at h; simp at h
        | ok dat =>
          rw [hev, hdat] at h
          dsimp only at h
          cases ev with
          | jstr evs =>
            dsimp only at h
            split at h
            · simp at h
            next hTruthy =>
              split at h
              · simp at h
              next hPus =>
                split at h
                · simp at h
                next hEmpty =>
                  split at h
                  · simp at h
                  next hEmpty2 =>
                    cases hpd : jsonParseData jparse dat with
                    | none => rw [hpd] at h; simp at h
                    | some eventData =>
                      rw [hpd] at h
                      dsimp only at h
                      have hTrF : ¬ truthy (jstr evs) = false := fun hb =>
                        hTruthy (Or.inl hb)
                      have hNe : ¬ evs = "" := fun he => hEmpty (Or.inl he)
                      refine ⟨evs, ?_, ?_⟩
                      · unfold extractEventType
                        rw [if_neg hTrim, hj]
                        try dsimp only
                        rw [hev]
                        try dsimp only
                        rw [if_neg hTrF]
                        try dsimp only
                        rw [if_neg hPus, if_neg hNe]
                      · rw [parseSwitch_eq] at h
                        cases het : eventTypeMap evs with
                        | none => rw [het] at h; simp at h
                        | some t =>
                          rw [het] at h
                          simp only [Option.some_bind] at h
                          rw [runCase_type t eventData pm h]
          | jundef => split at h <;> simp at h
          | jnull => split at h <;> simp at h
          | jbool b => split at h <;> simp at h
          | jnum n => split at h <;> simp at h
          | jarr l => split at h <;> simp at h
          | jobj o => split at h <;> simp at h

theorem handleMessage_trace (jparse : String → Option JsVal)
    (opts : KickWebSocketOptions) (buffer : List String) (raw : String) :
    (handleMessage jparse opts buffer raw).1 =
      PipelineAct.pubRaw raw ::
        ((if opts.enableBuffer then [PipelineAct.bufferAppend raw] else []) ++
         (if isPusherSystemFrame jparse raw then []
          else if (match extractEventType jparse raw with
                   | some et => isEventFiltered opts.filteredEvents et
                   | none => false) then []
          else
            match parseMessage jparse raw with
            | some pm => [PipelineAct.pubEvent pm.type pm.data]
            | none => [])) := by
  unfold handleMessage
  cases hb : opts.enableBuffer <;>
    cases hp : isPusherSystemFrame jparse raw <;>
      cases hx : extractEventType jparse raw <;>
        cases hpm : parseMessage jparse raw <;>
          simp [hb, hp, hx, hpm] <;>
            (try (split_ifs <;> simp))

/-- C2: the message-handling pipeline always publishes the raw frame first
(the action trace starts with the rawMessage publish, before any buffer
append and any decoded-event publish), and with the filter set
[ChatMessage] a frame that decodes to UserBanned is never published under
its domain kind, while the rawMessage publish still happens for it. -/
theorem C2_raw_first_and_filter_gating (jparse : String → Option JsVal)
    (opts : KickWebSocketOptions) (buffer : List String) (raw : String) :
    (∃ rest, (handleMessage jparse opts buffer raw).1 = PipelineAct.pubRaw raw :: rest) ∧
    PipelineAct.pubRaw raw ∈ (handleMessage jparse opts buffer raw).1 ∧
    (opts.filteredEvents = [.ChatMessage] →
      ∀ d, PipelineAct.pubEvent .UserBanned d ∉ (handleMessage jparse opts buffer raw).1) := by
  refine ⟨⟨_, handleMessage_trace jparse opts buffer raw⟩, ?_, ?_⟩
  · rw [handleMessage_trace]
    exact List.mem_cons_self _ _
  · intro hf d
    rw [handleMessage_trace]
    intro hmem
    simp only [List.mem_cons, List.mem_append] at hmem
    rcases hmem with h1 | h2 | h3
    · exact PipelineAct.noConfusion h1
    · split at h2 <;> simp at h2
    · split at h3
      · simp at h3
      · split at h3
        · simp at h3
        next hnf =>
          split at h3
          next pm hpm =>
            simp only [List.mem_singleton] at h3
            have hty : pm.type = .UserBanned := by
              simp only [PipelineAct.pubEvent.injEq] at h3
              exact h3.1.symm
            obtain ⟨evs, hex, hmap⟩ := parseMessage_shape jparse raw pm hpm
            apply hnf
            rw [hex]
            dsimp only
            rw [hf]
            unfold isEventFiltered
            rw [if_neg (by simp)]
            rw [hmap, hty]
            simp [eventTypeMap]
          next => simp at h3

/-- Witness for C2: a decoded UserBanned frame is suppressed by the
[ChatMessage] filter while its raw frame is still published. -/
theorem C2_raw_first_and_filter_gating_witness :
    PipelineAct.pubEvent .UserBanned
        (KickEventData.banned ⟨jstr "bob", "user_banned"⟩) ∉
      (handleMessage jpBan { defaultOptions with filteredEvents := [.ChatMessage] }
        [] "banframe").1 ∧
    PipelineAct.pubRaw "banframe" ∈
      (handleMessage jpBan { defaultOptions with filteredEvents := [.ChatMessage] }
        [] "banframe").1 := by
  have h := C2_raw_first_and_filter_gating jpBan
    { defaultOptions with filteredEvents := [.ChatMessage] } [] "banframe"
  exact ⟨h.2.2 rfl _, h.2.1⟩

theorem getField_ok_any (m : JsVal) (k k' : String) (v : JsVal)
    (h : getField m k = .ok v) : ∃ w, getField m k' = .ok w := by
  cases m <;> simp [getField] at h ⊢

theorem parseMessage_unfold (jp : String → Option JsVal) (raw : String) (m : JsVal)
    (hTrim : ¬(raw = "" ∨ jsTrim raw = "")) (hjp : jp raw = some m)
    (evs : String) (dat : JsVal)
    (hev : getField m "event" = .ok (jstr evs))
    (hdat : getField m "data" = .ok dat) :
    parseMessage jp raw =
      if truthy (jstr evs) = false ∨ isUndef dat = true then none
      else if strStartsWith evs "pusher:" = true ∨ strStartsWith evs "pusher_internal:" = true then
        none
      else if evs = "" ∨ isEmptyStr dat = true then none
      else if isUndef dat = true ∨ isEmptyStr dat = true then none
      else
        match jsonParseData jp dat with
        | none => none
        | some eventData => parseSwitch evs eventData := by
  unfold parseMessage
  rw [if_neg hTrim, hjp]
  dsimp only
  rw [hev, hdat]

/-- C1: the frame decoder is a total function (the shallow embedding maps
every throw inside the source's try/catch to none) and returns none for
blank input, invalid envelope JSON, a missing event or data field, a
control-namespace event name (whatever the payload), an empty data string,
an inner data document that fails to parse, and an event name outside the
ten-entry table; when the envelope is well formed, the event name is in the
table and the payload normalizer succeeds, it returns the decoded event
tagged with the mapped kind. -/
theorem C1_decoder_null_safety :
    (∀ (jp : String → Option JsVal) (raw : String), jsTrim raw = "" →
      parseMessage jp raw = none) ∧
    (∀ (jp : String → Option JsVal) (raw : String), jp raw = none →
      parseMessage jp raw = none) ∧
    (∀ (jp : String → Option JsVal) (raw : String) (flds : List (String × JsVal)),
      jp raw = some (jobj flds) →
      jlookup flds "event" = none ∨ jlookup flds "data" = none →
      parseMessage jp raw = none) ∧
    (∀ (jp : String → Option JsVal) (raw : String) (m : JsVal) (evs : String),
      jp raw = some m → getField m "event" = .ok (jstr evs) →
      (strStartsWith evs "pusher:" = true ∨ strStartsWith evs "pusher_internal:" = true) →
      parseMessage jp raw = none) ∧
    (∀ (jp : String → Option JsVal) (raw : String) (m : JsVal) (evs : String),
      jp raw = some m → getField m "event" = .ok (jstr evs) →
      getField m "data" = .ok (jstr "") →
      parseMessage jp raw = none) ∧
    (∀ (jp : String → Option JsVal) (raw : String) (m : JsVal) (evs ds : String),
      jp raw = some m → getField m "event" = .ok (jstr evs) →
      getField m "data" = .ok (jstr ds) → jp ds = none →
      parseMessage jp raw = none) ∧
    (∀ (jp : String → Option JsVal) (raw : String) (m : JsVal) (evs : String),
      jp raw = some m → getField m "event" = .ok (jstr evs) →
      eventTypeMap evs = none →
      parseMessage jp raw = none) ∧
    (∀ (jp : String → Option JsVal) (raw : String) (m d : JsVal)
        (evs ds : String) (t : KickEventType) (pm : ParsedMessage),
      ¬(raw = "" ∨ jsTrim raw = "") →
      jp raw = some m →
      getField m "event" = .ok (jstr evs) →
      getField m "data" = .ok (jstr ds) →
      ¬(strStartsWith evs "pusher:" = true ∨ strStartsWith evs "pusher_internal:" = true) →
      evs ≠ "" → ds ≠ "" →
      jp ds = some d →
      eventTypeMap evs = some t →
      runCase t d = some pm →
      parseMessage jp raw = some pm) ∧
    (∀ (t : KickEventType) (d : JsVal) (pm : ParsedMessage),
      runCase t d = some pm → pm.type = t) := by
  refine ⟨?_, ?_, ?_, ?_, ?_, ?_, ?_, ?_, runCase_type⟩
  · intro jp raw h
    unfold parseMessage
    rw [if_pos (Or.inr h)]
  · intro jp raw h
    unfold parseMessage
    split
    · rfl
    · rw [h]
  · intro jp raw flds hjp hor
    unfold parseMessage
    split
    · rfl
    · rw [hjp]
      dsimp only
      rcases hor with h1 | h1 <;> simp [getField, h1, truthy, isUndef]
  · intro jp raw m evs hjp hev hpus
    by_cases hTrim : raw = "" ∨ jsTrim raw = ""
    · unfold parseMessage; rw [if_pos hTrim]
    · obtain ⟨dat, hdat⟩ := getField_ok_any m "event" "data" _ hev
      rw [parseMessage_unfold jp raw m hTrim hjp evs dat hev hdat]
      by_cases hc : truthy (jstr evs) = false ∨ isUndef dat = true
      · rw [if_pos hc]
      · rw [if_neg hc, if_pos hpus]
  · intro jp raw m evs hjp hev hdat
    by_cases hTrim : raw = "" ∨ jsTrim raw = ""
    · unfold parseMessage; rw [if_pos hTrim]
    · rw [parseMessage_unfold jp raw m hTrim hjp evs (jstr "") hev hdat]
      by_cases hc : truthy (jstr evs) = false ∨ isUndef (jstr "") = true
      · rw [if_pos hc]
      · rw [if_neg hc]
        by_cases hp : strStartsWith evs "pusher:" = true ∨
            strStartsWith evs "pusher_internal:" = true
        · rw [if_pos hp]
        · rw [if_neg hp, if_pos (Or.inr (by simp [isEmptyStr]))]
  · intro jp raw m evs ds hjp hev hdat hds
    by_cases hTrim : raw = "" ∨ jsTrim raw = ""
    · unfold parseMessage; rw [if_pos hTrim]
    · rw [parseMessage_unfold jp raw m hTrim hjp evs (jstr ds) hev hdat]
      by_cases hc : truthy (jstr evs) = false ∨ isUndef (jstr ds) = true
      · rw [if_pos hc]
      · rw [if_neg hc]
        by_cases hp : strStartsWith evs "pusher:" = true ∨
            strStartsWith evs "pusher_internal:" = true
        · rw [if_pos hp]
        · rw [if_neg hp]
          by_cases he : evs = "" ∨ isEmptyStr (jstr ds) = true
          · rw [if_pos he]
          · rw [if_neg he, if_neg (by
              intro hh
              rcases hh with hh | hh
              · exact absurd hh (by simp [isUndef])
              · exact he (Or.inr hh))]
            have : jsonParseData jp (jstr ds) = none := by
              simp [jsonParseData, jsToString, hds]
            rw [this]
  · intro jp raw m evs hjp hev hmap
    by_cases hTrim : raw = "" ∨ jsTrim raw = ""
    · unfold parseMessage; rw [if_pos hTrim]
    · obtain ⟨dat, hdat⟩ := getField_ok_any m "event" "data" _ hev
      rw [parseMessage_unfold jp raw m hTrim hjp evs dat hev hdat]
      by_cases hc : truthy (jstr evs) = false ∨ isUndef dat = true
      · rw [if_pos hc]
      · rw [if_neg hc]
        by_cases hp : strStartsWith evs "pusher:" = true ∨
            strStartsWith evs "pusher_internal:" = true
        · rw [if_pos hp]
        · rw [if_neg hp]
          by_cases he : evs = "" ∨ isEmptyStr dat = true
          · rw [if_pos he]
          · rw [if_neg he]
            by_cases hu : isUndef dat = true ∨ isEmptyStr dat = true
            · rw [if_pos hu]
            · rw [if_neg hu]
              cases hpd : jsonParseData jp dat with
              | none => rfl
              | some eventData =>
                dsimp only
                rw [parseSwitch_eq, hmap]
                rfl
  · intro jp raw m d evs ds t pm hTrim hjp hev hdat hpus hne hds hjd hmap hrun
    rw [parseMessage_unfold jp raw m hTrim hjp evs (jstr ds) hev hdat]
    rw [if_neg (by simp [truthy, isUndef, hne])]
    rw [if_neg hpus]
    rw [if_neg (by simp [isEmptyStr, hne, hds])]
    rw [if_neg (by simp [isUndef, isEmptyStr, hds])]
    have : jsonParseData jp (jstr ds) = some d := by
      simp [jsonParseData, jsToString, hjd]
    rw [this]
    dsimp only
    rw [parseSwitch_eq, hmap]
    simpa using hrun

/-- Witness for C1: blank input, invalid JSON, a control frame, an unknown
event name, and a fully decoded chat-message frame. -/
theorem C1_decoder_null_safety_witness :
    parseMessage (fun _ => none) "" = none ∧
    parseMessage (fun _ => none) "x" = none ∧
    parseMessage
      (fun _ => some (jobj [("event", jstr "pusher:pong"), ("data", jstr "x")]))
      "f" = none ∧
    parseMessage
      (fun _ => some (jobj [("event", jstr "App\\Events\\NopeEvent"), ("data", jstr "x")]))
      "f" = none ∧
    parseMessage jpChat "frameChat" = some ⟨.ChatMessage, .chat chatEx⟩ := by
  refine ⟨?_, ?_, ?_, ?_, ?_⟩
  · exact C1_decoder_null_safety.1 _ "" rfl
  · exact C1_decoder_null_safety.2.1 _ "x" rfl
  · exact C1_decoder_null_safety.2.2.2.1 _ "f" _ "pusher:pong" rfl rfl
      (Or.inl (by decide))
  · exact C1_decoder_null_safety.2.2.2.2.2.2.1 _ "f" _ "App\\Events\\NopeEvent"
      rfl rfl (by decide)
  · exact C1_decoder_null_safety.2.2.2.2.2.2.2.1 jpChat "frameChat" _ _
      "App\\Events\\ChatMessageEvent" "payloadChat" .ChatMessage _
      (by decide) rfl rfl rfl (by decide) (by decide) (by decide) rfl rfl rfl

theorem except_bind_ok {α β : Type} (x : Except Unit α) (f : α → Except Unit β) (b : β) :
    (x >>= f) = .ok b ↔ ∃ a, x = .ok a ∧ f a = .ok b := by
  cases x <;> simp [Bind.bind, Except.bind]

theorem cleanEmotesAux_nomark (cs : List Char)
    (h : ∀ n, matchEmote (cs.drop n) = none) :
    cleanEmotesAux cs.length cs = cs := by
  induction cs with
  | nil => rfl
  | cons c rest ih =>
    have h0 : matchEmote (c :: rest) = none := by
      have := h 0
      simpa using this
    have hrest : ∀ n, matchEmote (rest.drop n) = none := fun n => by
      have := h (n + 1)
      simpa using this
    simp only [List.length_cons, cleanEmotesAux, h0]
    rw [ih hrest]

/-- C9: chat-message content replaces each marker of the form
[emote:id:name] by its name capture; content without markers is returned
unchanged; empty or absent content maps to the empty string; and the
content field of every successfully normalized chat message is exactly the
cleaned raw content. -/
theorem C9_emote_substitution :
    replaceEmotes "Hi [emote:1:Kappa] there [emote:2:Pog]" = "Hi Kappa there Pog" ∧
    (∀ s : String, ¬ hasEmoteMarker s → replaceEmotes s = s) ∧
    cleanEmotes (jstr "") = .ok "" ∧
    cleanEmotes jundef = .ok "" ∧
    (∀ (d c : JsVal) (e : ChatMessageEvent),
      getField d "content" = .ok c → parseChatMessage d = .ok e →
      cleanEmotes c = .ok e.content) := by
  refine ⟨rfl, ?_, rfl, rfl, ?_⟩
  · intro s hs
    have hall : ∀ n, matchEmote (s.toList.drop n) = none := by
      intro n
      by_contra hne
      exact hs ⟨n, by
        cases hm : matchEmote (s.toList.drop n) with
        | none => exact absurd hm hne
        | some p => rfl⟩
    unfold replaceEmotes
    rw [cleanEmotesAux_nomark s.toList hall]
    cases s with
    | mk data => rfl
  · intro d c e hc hpc
    simp only [parseChatMessage, except_bind_ok] at hpc
    obtain ⟨i1, h1, cr, h2, ct, h3, i4, h4, i5, h5, i6, h6, i7, h7, i8, h8,
      i9, h9, i10, h10, i11, h11, i12, h12, i13, h13, heq⟩ := hpc
    have hcr : cr = c := by
      have := h2.symm.trans hc
      exact Except.ok.inj this
    have he : e.content = ct := by
      have heq2 := Except.ok.inj heq
      rw [← heq2]
    rw [← hcr, h3, he]

/-- Witness for C9's general parts at a concrete payload. -/
theorem C9_emote_substitution_witness :
    cleanEmotes (jstr "Hello [emote:1:Kappa]") = .ok chatEx.content ∧
    replaceEmotes "no markers here" = "no markers here" := by
  constructor
  · exact C9_emote_substitution.2.2.2.2 chatPayload (jstr "Hello [emote:1:Kappa]")
      chatEx rfl rfl
  · exact C9_emote_substitution.2.1 "no markers here" (by
      rintro ⟨n, hn⟩
      have hlt : n < 16 ∨ 16 ≤ n := by omega
      rcases hlt with hlt | hle
      · interval_cases n <;> exact absurd hn (by decide)
      · rw [List.drop_eq_nil_of_le (by simp; omega)] at hn
        simp [matchEmote, dropLit] at hn)

theorem postDisconnect_step (s : MgrState) (ev : MgrEvent) (hP : postDisconnect s)
    (hev : notConnect ev) :
    postDisconnect (step s ev).1 ∧
    (∀ a ∈ (step s ev).2, a ≠ OutEvent.connectAttempt ∧ a ≠ OutEvent.emitReady) ∧
    (step s ev).2.countP isEmitDisc + socketBudget (step s ev).1 ≤ socketBudget s := by
  obtain ⟨hman, htimer, hstate, hsock⟩ := hP
  cases ev with
  | connectCall ok => exact absurd hev (by simp [notConnect])
  | disconnectCall =>
    cases hs : s.socket with
    | some ph =>
      simp [step, disconnectCall, hs, postDisconnect, socketBudget, hman, isEmitDisc]
    | none =>
      simp [step, disconnectCall, hs, postDisconnect, socketBudget, hman, hstate,
        hsock, isEmitDisc]
  | timerFire ok =>
    simp [step, htimer, postDisconnect, hman, hstate, hsock, socketBudget]
  | socketOpen =>
    cases hs : s.socket with
    | some ph =>
      cases ph with
      | opening => exact absurd hs hsock
      | opened =>
        simp [step, hs, postDisconnect, hman, htimer, hstate, hsock, socketBudget]
      | closing =>
        simp [step, hs, postDisconnect, hman, htimer, hstate, hsock, socketBudget]
    | none =>
      simp [step, hs, postDisconnect, hman, htimer, hstate, hsock, socketBudget]
  | socketClose code =>
    cases hs : s.socket with
    | some ph =>
      simp [step, hs, handleDisconnect, hman, postDisconnect, htimer, socketBudget,
        isEmitDisc, List.countP_cons]
    | none =>
      simp [step, hs, postDisconnect, hman, htimer, hstate, hsock, socketBudget]
  | socketError =>
    cases hs : s.socket with
    | some ph =>
      simp [step, hs, postDisconnect, hman, htimer, hstate, hsock, socketBudget,
        isEmitDisc]
      intro hph
      exact hsock (by rw [hs, hph])
    | none =>
      simp [step, hs, postDisconnect, hman, htimer, hstate, hsock, socketBudget]

theorem postDisconnect_run (evs : List MgrEvent) :
    ∀ s : MgrState, postDisconnect s → (∀ ev ∈ evs, notConnect ev) →
      postDisconnect (run s evs).1 ∧
      (∀ a ∈ (run s evs).2, a ≠ OutEvent.connectAttempt ∧ a ≠ OutEvent.emitReady) ∧
      (run s evs).2.countP isEmitDisc + socketBudget (run s evs).1 ≤ socketBudget s := by
  induction evs with
  | nil =>
    intro s hP _
    exact ⟨hP, by simp [run], by simp [run]⟩
  | cons ev rest ih =>
    intro s hP hall
    have h1 := postDisconnect_step s ev hP (hall ev (List.mem_cons_self _ _))
    have h2 := ih (step s ev).1 h1.1 (fun e he => hall e (List.mem_cons_of_mem _ he))
    refine ⟨h2.1, ?_, ?_⟩
    · intro a ha
      simp only [run, List.mem_append] at ha
      rcases ha with ha | ha
      · exact h1.2.1 a ha
      · exact h2.2.1 a ha
    · simp only [run, List.countP_append]
      have hc1 := h1.2.2
      have hc2 := h2.2.2
      omega

theorem postDisconnect_disconnectCall (s : MgrState) :
    postDisconnect (step s .disconnectCall).1 := by
  cases hs : s.socket <;> simp [step, disconnectCall, hs, postDisconnect]

/-- C3 counterexample: after a non-manual close schedules a reconnect
(timer armed at 5000 ms), the timer firing with a failed channel
resolution leaves the controller stuck in connecting with no timer armed —
the failure is only logged, no further attempt is rescheduled. -/
theorem C3_reconnect_counterexample :
    (run (initialMgr defaultOptions)
      [MgrEvent.connectCall true, .socketOpen, .socketClose 1006]).1.reconnectTimer =
        some 5000 ∧
    (run (initialMgr defaultOptions)
      [MgrEvent.connectCall true, .socketOpen, .socketClose 1006,
        .timerFire false]).1.reconnectTimer = none ∧
    (run (initialMgr defaultOptions)
      [MgrEvent.connectCall true, .socketOpen, .socketClose 1006,
        .timerFire false]).1.connectionState = .connecting :=
  ⟨rfl, rfl, rfl⟩

/-- C3 (amended): with autoReconnect on, a non-manual close moves the
controller to reconnecting and arms a single one-shot timer of
reconnectInterval (replacing any pending timer, so the interval never
grows and there is no retry cap); the timer firing re-invokes the connect
procedure; but a reconnect attempt whose channel resolution fails is only
logged — it leaves the controller in connecting with no timer armed and
schedules nothing — while after a manual disconnect() no connect attempt
occurs until connect() is called again. -/
theorem C3_reconnect_scheduling :
    (∀ (s : MgrState) (ph : SocketPhase) (code : Nat),
      s.options.autoReconnect = true → s.isManualDisconnect = false →
      s.socket = some ph →
      (step s (.socketClose code)).1.connectionState = .reconnecting ∧
      (step s (.socketClose code)).1.reconnectTimer =
        some s.options.reconnectInterval ∧
      (step s (.socketClose code)).2 = [.emitDisconnect code]) ∧
    (∀ (s : MgrState) (d : Nat) (ok : Bool), s.reconnectTimer = some d →
      (step s (.timerFire ok)).2 = [.connectAttempt]) ∧
    (∀ (s : MgrState) (d : Nat), s.reconnectTimer = some d →
      (step s (.timerFire true)).1.connectionState = .connecting ∧
      (step s (.timerFire true)).1.socket = some .opening) ∧
    (∀ (s : MgrState) (d : Nat), s.reconnectTimer = some d →
      (step s (.timerFire false)).1.reconnectTimer = none ∧
      (step s (.timerFire false)).1.connectionState = .connecting) ∧
    (∀ (s : MgrState) (evs : List MgrEvent), (∀ ev ∈ evs, notConnect ev) →
      ∀ a ∈ (run (step s .disconnectCall).1 evs).2, a ≠ OutEvent.connectAttempt) := by
  refine ⟨?_, ?_, ?_, ?_, ?_⟩
  · intro s ph code hauto hman hsock
    simp [step, hsock, handleDisconnect, hauto, hman, scheduleReconnect]
  · intro s d ok htimer
    cases ok <;> simp [step, htimer, timerFire, performConnection]
  · intro s d htimer
    simp [step, htimer, timerFire, performConnection]
  · intro s d htimer
    simp [step, htimer, timerFire, performConnection]
  · intro s evs hall a ha
    exact ((postDisconnect_run evs _ (postDisconnect_disconnectCall s) hall).2.1 a ha).1

/-- Witness for C3 at the concrete default configuration. -/
theorem C3_reconnect_scheduling_witness :
    (step (run (initialMgr defaultOptions)
        [MgrEvent.connectCall true, .socketOpen]).1
      (.socketClose 1006)).1.connectionState = .reconnecting ∧
    (step (run (initialMgr defaultOptions)
        [MgrEvent.connectCall true, .socketOpen]).1
      (.socketClose 1006)).1.reconnectTimer = some 5000 := by
  have h := C3_reconnect_scheduling.1
    (run (initialMgr defaultOptions) [MgrEvent.connectCall true, .socketOpen]).1
    .opened 1006 rfl rfl rfl
  exact ⟨h.1, h.2.1⟩

/-- C4 counterexample: after connect, open and a manual disconnect(), the
socket's close completion still publishes one disconnect lifecycle event —
so it is not true that no further events fire for the instance. -/
theorem C4_counterexample :
    (step (run (initialMgr defaultOptions)
        [MgrEvent.connectCall true, .socketOpen, .disconnectCall]).1
      (.socketClose 1000)).2 = [.emitDisconnect 1000] :=
  rfl

/-- C4 (amended): disconnect() sets the manual flag, cancels any pending
reconnect timer, closes the live socket (if any) with the normal-closure
code 1000 and moves to disconnected; afterwards, until connect() is called
again, no reconnect attempt and no ready event ever occurs, the state stays
disconnected, and the already-closing socket delivers at most one final
disconnect lifecycle publish; the manual flag is cleared by the next
connect(). -/
theorem C4_manual_disconnect :
    (∀ s : MgrState,
      (step s .disconnectCall).1.isManualDisconnect = true ∧
      (step s .disconnectCall).1.reconnectTimer = none ∧
      (step s .disconnectCall).1.connectionState = .disconnected) ∧
    (∀ (s : MgrState) (ph : SocketPhase), s.socket = some ph →
      (step s .disconnectCall).2 = [.wsCloseCalled 1000]) ∧
    (∀ (s : MgrState) (evs : List MgrEvent), (∀ ev ∈ evs, notConnect ev) →
      (∀ a ∈ (run (step s .disconnectCall).1 evs).2,
        a ≠ OutEvent.connectAttempt ∧ a ≠ OutEvent.emitReady) ∧
      (run (step s .disconnectCall).1 evs).1.connectionState = .disconnected ∧
      (run (step s .disconnectCall).1 evs).2.countP isEmitDisc ≤ 1) ∧
    (∀ (s : MgrState) (ok : Bool),
      ¬(s.connectionState = .connected ∨ s.connectionState = .connecting) →
      (step s (.connectCall ok)).1.isManualDisconnect = false) := by
  refine ⟨?_, ?_, ?_, ?_⟩
  · intro s
    cases hs : s.socket <;> simp [step, disconnectCall, hs]
  · intro s ph hs
    simp [step, disconnectCall, hs]
  · intro s evs hall
    have h := postDisconnect_run evs _ (postDisconnect_disconnectCall s) hall
    refine ⟨h.2.1, h.1.2.2.1, ?_⟩
    have hb : socketBudget (step s .disconnectCall).1 ≤ 1 := by
      cases hx : (step s .disconnectCall).1.socket <;> simp [socketBudget, hx]
    have hc := h.2.2
    omega
  · intro s ok hcond
    cases ok with
    | true =>
      simp [step, connectCall, hcond, performConnection]
    | false =>
      simp only [step, connectCall, if_neg hcond, performConnection]
      simp [handleConnectionError, scheduleReconnect]
      split_ifs <;> simp

/-- Witness for C4 at a concrete connected instance. -/
theorem C4_manual_disconnect_witness :
    (step (run (initialMgr defaultOptions)
        [MgrEvent.connectCall true, .socketOpen]).1
      .disconnectCall).2 = [.wsCloseCalled 1000] :=
  C4_manual_disconnect.2.1
    (run (initialMgr defaultOptions) [MgrEvent.connectCall true, .socketOpen]).1
    .opened rfl

end KickWs
